import Mathlib

/-!
Verification development for the GraphColoringClustering protocol
(graph-coloring-based clustering for multi-hop wireless networks).

The definitions below are a shallow embedding of the node-local decision
logic of src/src/GraphColoringClustering.cc: the coloring step
(handleColorTimer), the role resolution (recomputeRole), the DATA packet
receive pipeline (handleUdpPacket, DATA branch), neighbor-table
maintenance (pruneNeighbors) and HELLO processing.  C++ ints are
modelled as Int, simulation time stamps and transport addresses as Int,
std::map<int, NeighborInfo> as a list of records keyed by neighborId
(std::map guarantees unique keys and ascending iteration order; where a
proof needs those facts they appear as explicit hypotheses), and
std::set as a list queried by membership.
-/

/-- Role constants, from enum Role in GraphColoringClustering.h. -/
def UNDECIDED : Int := 0

/-- Role constant CLUSTER_HEAD = 1. -/
def CLUSTER_HEAD : Int := 1

/-- Role constant MEMBER = 2. -/
def MEMBER : Int := 2

/-- Role constant GATEWAY = 3. -/
def GATEWAY : Int := 3

/-- Mirror of struct NeighborInfo (neighborId, ipAddress, color, role,
clusterId, lastHeard).  The ipAddress and lastHeard fields are modelled
as integers. -/
structure NeighborInfo where
  neighborId : Int
  ipAddress : Int
  color : Int
  role : Int
  clusterId : Int
  lastHeard : Int
deriving DecidableEq

/-- neighborTable.find(id): the std::map is keyed by neighborId, so a
lookup returns the unique entry with that id (if any). -/
def lookupNeighbor (tbl : List NeighborInfo) (id : Int) : Option NeighborInfo :=
  tbl.find? (fun n => n.neighborId == id)

/-- Collection of neighbor colors: the std::set usedColors built at the
top of handleColorTimer, keeping only colors >= 0. -/
def usedColors (tbl : List NeighborInfo) : List Int :=
  (tbl.map (fun n => n.color)).filter (fun c => decide (0 ≤ c))

/-- The conflict test of handleColorTimer: the node is colored and some
neighbor has the same color and a numerically smaller id. -/
def conflictWithHigherPriority (tbl : List NeighborInfo) (nodeId currentColor : Int) : Prop :=
  0 ≤ currentColor ∧ ∃ n ∈ tbl, n.color = currentColor ∧ n.neighborId < nodeId

instance (tbl : List NeighborInfo) (nodeId currentColor : Int) :
    Decidable (conflictWithHigherPriority tbl nodeId currentColor) :=
  decidable_of_iff
    (0 ≤ currentColor ∧ ∃ n ∈ tbl, n.color = currentColor ∧ n.neighborId < nodeId) Iff.rfl

/-- Fuel-based model of the C++ while loops
`while (usedColors.find(c) != usedColors.end()) ++c;`.
The fuel bounds the number of iterations; with fuel larger than the
number of distinct used colors at or above the start value the result is
the least free color. -/
def firstFreeAux (used : List Int) : Nat → Int → Int
  | 0, c => c
  | fuel + 1, c => if used.contains c then firstFreeAux used fuel (c + 1) else c

/-- Smallest integer >= c not in used (the C++ greedy scan starting at c). -/
def firstFreeFrom (used : List Int) (c : Int) : Int :=
  firstFreeAux used (used.length + 1) c

/-- Pure model of the color update performed by
GraphColoringClustering::handleColorTimer: from the neighbor table, the
node id and the current color it returns the new value of currentColor.
Branches in source order: (re)coloring on uncolored/conflict, cluster
head recovery, compaction. -/
def handleColorTimer (tbl : List NeighborInfo) (nodeId currentColor : Int) : Int :=
  let used := usedColors tbl
  if currentColor < 0 ∨ conflictWithHigherPriority tbl nodeId currentColor then
    firstFreeFrom used 0
  else if tbl ≠ [] ∧ ¬ (used.contains 0 = true) ∧ currentColor ≠ 0 then
    0
  else if 0 < currentColor then
    let candidate := firstFreeFrom used 1
    if candidate < currentColor then candidate else currentColor
  else
    currentColor

/-- One step of the scan in recomputeRole that picks the smallest-id
neighbor with color 0 (accumulator -1 means none found yet). -/
def chStep (acc : Int) (n : NeighborInfo) : Int :=
  if n.color = 0 ∧ (acc < 0 ∨ n.neighborId < acc) then n.neighborId else acc

/-- The chosenChId loop of recomputeRole over the whole table. -/
def chooseChId (tbl : List NeighborInfo) : Int :=
  tbl.foldl chStep (-1)

/-- Result of recomputeRole: the new role, clusterId and currentColor of
the node (recomputeRole can reset currentColor to -1). -/
structure RoleResult where
  role : Int
  clusterId : Int
  currentColor : Int
deriving DecidableEq

/-- Pure model of GraphColoringClustering::recomputeRole: from the
neighbor table, the node id and the current color it returns the updated
(role, clusterId, currentColor) triple. -/
def recomputeRole (tbl : List NeighborInfo) (nodeId currentColor : Int) : RoleResult :=
  if currentColor < 0 then
    ⟨UNDECIDED, -1, currentColor⟩
  else if currentColor = 0 then
    ⟨CLUSTER_HEAD, nodeId, currentColor⟩
  else
    let chosen := chooseChId tbl
    if chosen < 0 then
      ⟨UNDECIDED, chosen, -1⟩
    else if ∃ n ∈ tbl, 0 ≤ n.clusterId ∧ n.clusterId ≠ chosen then
      ⟨GATEWAY, chosen, currentColor⟩
    else
      ⟨MEMBER, chosen, currentColor⟩

/-- Wire fields of a DATA packet: srcId, seqNum, ttl, destNodeId,
nextHopId (-1 means unset) and creationTime. -/
structure DataPkt where
  srcId : Int
  seqNum : Int
  ttl : Int
  destNodeId : Int
  nextHopId : Int
  creationTime : Int
deriving DecidableEq

/-- The node-local state consulted and updated by the DATA receive path. -/
structure NodeState where
  nodeId : Int
  currentColor : Int
  role : Int
  clusterId : Int
  neighborTable : List NeighborInfo
  seenDataPackets : List (Int × Int)
  backboneRoutingTable : List (Int × Int)
deriving DecidableEq

/-- Observable outcome of processing one received DATA packet: the early
drop reasons, local delivery, or the list of forwarded copies (each
tagged with its nextHopId field). -/
inductive RxOutcome where
  | dropNotMine : RxOutcome
  | dropDuplicate : RxOutcome
  | delivered : RxOutcome
  | dropMember : RxOutcome
  | dropTtl : RxOutcome
  | forwarded : List DataPkt → RxOutcome
deriving DecidableEq

/-- Packets actually transmitted for an outcome (empty unless forwarding
happened). -/
def sentPackets : RxOutcome → List DataPkt
  | RxOutcome.forwarded sends => sends
  | _ => []

/-- Result of the DATA receive path: the outcome plus the updated
seenDataPackets and backboneRoutingTable. -/
structure RxResult where
  outcome : RxOutcome
  seenDataPackets : List (Int × Int)
  backboneRoutingTable : List (Int × Int)
deriving DecidableEq

/-- The fromMyCH test of handleUdpPacket: the node has a role, a cluster
head, that cluster head is a current neighbor, and the packet's last-hop
address is that neighbor's address. -/
def FromMyCH (st : NodeState) (lastHopIp : Int) : Prop :=
  st.role ≠ UNDECIDED ∧ st.clusterId ≠ -1 ∧
    (lookupNeighbor st.neighborTable st.clusterId).map (fun n => n.ipAddress) = some lastHopIp

instance (st : NodeState) (lastHopIp : Int) : Decidable (FromMyCH st lastHopIp) :=
  decidable_of_iff
    (st.role ≠ UNDECIDED ∧ st.clusterId ≠ -1 ∧
      (lookupNeighbor st.neighborTable st.clusterId).map (fun n => n.ipAddress) = some lastHopIp)
    Iff.rfl

/-- addPar("nextHopId") on a copy of a packet. -/
def withNextHop (p : DataPkt) (h : Int) : DataPkt :=
  { p with nextHopId := h }

/-- backboneRoutingTable.find(k), on the assoc-list model of the map. -/
def lookupAssoc (m : List (Int × Int)) (k : Int) : Option Int :=
  (m.find? (fun q => q.1 == k)).map (fun q => q.2)

/-- backboneRoutingTable[k] = v (overwrite or insert). -/
def setAssoc (m : List (Int × Int)) (k v : Int) : List (Int × Int) :=
  if m.any (fun q => q.1 == k) then m.map (fun q => if q.1 == k then (k, v) else q)
  else m ++ [(k, v)]

/-- backboneRoutingTable.erase(k). -/
def eraseAssoc (m : List (Int × Int)) (k : Int) : List (Int × Int) :=
  m.filter (fun q => q.1 != k)

/-- Cluster head fallback flood: one jittered copy per neighbor whose
recorded role is GATEWAY. -/
def chFloodSends (tbl : List NeighborInfo) (fwd : DataPkt) : List DataPkt :=
  (tbl.filter (fun n => n.role == GATEWAY)).map (fun n => withNextHop fwd n.neighborId)

/-- Gateway outbound bridging: one jittered copy per neighbor in a
different cluster whose role is GATEWAY or CLUSTER_HEAD. -/
def gwBridgeSends (tbl : List NeighborInfo) (myCluster : Int) (fwd : DataPkt) : List DataPkt :=
  (tbl.filter (fun n => n.clusterId != myCluster && (n.role == GATEWAY || n.role == CLUSTER_HEAD))).map
    (fun n => withNextHop fwd n.neighborId)

/-- The scan at the top of route learning: the id of the first neighbor
whose recorded address equals the packet's last-hop address, or -1. -/
def lastHopIdOf (tbl : List NeighborInfo) (lastHopIp : Int) : Int :=
  match tbl.find? (fun n => n.ipAddress == lastHopIp) with
  | some n => n.neighborId
  | none => -1

/-- The role-specific forwarding section of the DATA branch of
handleUdpPacket (reached only after the TTL check): builds the forward
copy with decremented TTL and dispatches on the node role: cluster head
(local delivery, cached gateway, or flood), gateway (outbound bridge or
inbound uplink), and the fall-through that transmits nothing. -/
def forwardStage (st : NodeState) (pkt : DataPkt) (lastHopIp : Int)
    (seen1 backbone1 : List (Int × Int)) : RxResult :=
  let fwd : DataPkt := { srcId := pkt.srcId, seqNum := pkt.seqNum, ttl := pkt.ttl - 1,
                         destNodeId := pkt.destNodeId, nextHopId := -1,
                         creationTime := pkt.creationTime }
  if st.role = CLUSTER_HEAD then
    if (lookupNeighbor st.neighborTable pkt.destNodeId).isSome then
      ⟨RxOutcome.forwarded [withNextHop fwd pkt.destNodeId], seen1, backbone1⟩
    else
      match lookupAssoc backbone1 pkt.destNodeId with
      | some gwId =>
        if (lookupNeighbor st.neighborTable gwId).map (fun n => n.role) = some GATEWAY then
          ⟨RxOutcome.forwarded [withNextHop fwd gwId], seen1, backbone1⟩
        else
          ⟨RxOutcome.forwarded (chFloodSends st.neighborTable fwd), seen1,
            eraseAssoc backbone1 pkt.destNodeId⟩
      | none =>
        ⟨RxOutcome.forwarded (chFloodSends st.neighborTable fwd), seen1, backbone1⟩
  else if st.role = GATEWAY then
    if st.clusterId ≠ -1 ∧
        (lookupNeighbor st.neighborTable st.clusterId).map (fun n => n.ipAddress)
          = some lastHopIp then
      ⟨RxOutcome.forwarded (gwBridgeSends st.neighborTable st.clusterId fwd), seen1, backbone1⟩
    else if st.clusterId ≠ -1 ∧ (lookupNeighbor st.neighborTable st.clusterId).isSome then
      ⟨RxOutcome.forwarded [withNextHop fwd st.clusterId], seen1, backbone1⟩
    else
      ⟨RxOutcome.forwarded [], seen1, backbone1⟩
  else
    ⟨RxOutcome.forwarded [], seen1, backbone1⟩

/-- Pure model of the DATA branch of
GraphColoringClustering::handleUdpPacket: route learning, addressing
filter, duplicate filter with the source-gateway re-admission exception,
delivery check, member stop rule, TTL check, then the role-dependent
forwarding of forwardStage.  lastHopIp is the transport-level source
address of the received packet. -/
def handleDataPacket (st : NodeState) (pkt : DataPkt) (lastHopIp : Int) : RxResult :=
  let lastHopId : Int := lastHopIdOf st.neighborTable lastHopIp
  let backbone1 : List (Int × Int) :=
    if st.role = CLUSTER_HEAD ∧ lastHopId ≠ -1 ∧
        (lookupNeighbor st.neighborTable lastHopId).map (fun n => n.role) = some GATEWAY
    then setAssoc st.backboneRoutingTable pkt.srcId lastHopId
    else st.backboneRoutingTable
  if pkt.nextHopId ≠ -1 ∧ pkt.nextHopId ≠ st.nodeId then
    ⟨RxOutcome.dropNotMine, st.seenDataPackets, backbone1⟩
  else
    let isSeen : Bool := st.seenDataPackets.contains (pkt.srcId, pkt.seqNum)
    if isSeen ∧ ¬ (pkt.srcId = st.nodeId ∧ st.role = GATEWAY ∧ FromMyCH st lastHopIp) then
      ⟨RxOutcome.dropDuplicate, st.seenDataPackets, backbone1⟩
    else
      let seen1 := if isSeen then st.seenDataPackets else (pkt.srcId, pkt.seqNum) :: st.seenDataPackets
      if st.nodeId = pkt.destNodeId then
        ⟨RxOutcome.delivered, seen1, backbone1⟩
      else if st.role = MEMBER then
        ⟨RxOutcome.dropMember, seen1, backbone1⟩
      else if pkt.ttl ≤ 0 then
        ⟨RxOutcome.dropTtl, seen1, backbone1⟩
      else
        forwardStage st pkt lastHopIp seen1 backbone1

/-- Pure model of GraphColoringClustering::pruneNeighbors: collect the
ids of entries whose lastHeard exceeded neighborTimeout, erase them, and
report whether anything was removed. -/
def pruneNeighbors (tbl : List NeighborInfo) (now neighborTimeout : Int) :
    List NeighborInfo × Bool :=
  let toRemove := (tbl.filter (fun n => decide (neighborTimeout < now - n.lastHeard))).map
    (fun n => n.neighborId)
  (tbl.filter (fun n => ! toRemove.contains n.neighborId), ! toRemove.isEmpty)

/-- Fields of a HELLO advertisement (senderId, color, role, clusterId)
plus its transport-level source address. -/
structure Advertisement where
  senderId : Int
  color : Int
  role : Int
  clusterId : Int
  senderIp : Int
deriving DecidableEq

/-- neighborTable[sender] = info: overwrite the entry keyed by the
sender id, or add it. -/
def upsertNeighbor (tbl : List NeighborInfo) (info : NeighborInfo) : List NeighborInfo :=
  if tbl.any (fun n => n.neighborId == info.neighborId) then
    tbl.map (fun n => if n.neighborId == info.neighborId then info else n)
  else
    tbl ++ [info]

/-- Pure model of the HELLO branch of handleUdpPacket: a self
advertisement is dropped before the table update, any other one is
upserted with a fresh lastHeard stamp. -/
def handleAdvertisement (tbl : List NeighborInfo) (nodeId : Int) (adv : Advertisement)
    (now : Int) : List NeighborInfo :=
  if adv.senderId = nodeId then tbl
  else upsertNeighbor tbl ⟨adv.senderId, adv.senderIp, adv.color, adv.role, adv.clusterId, now⟩

-- ---------------------------------------------------------------------
-- Lemmas about firstFreeAux / firstFreeFrom
-- ---------------------------------------------------------------------

theorem firstFreeAux_le (used : List Int) :
    ∀ (fuel : Nat) (c : Int), c ≤ firstFreeAux used fuel c := by
  intro fuel
  induction fuel with
  | zero => intro c; simp [firstFreeAux]
  | succ fuel ih =>
    intro c
    simp only [firstFreeAux]
    split
    · exact le_trans (by omega) (ih (c + 1))
    · exact le_refl c

theorem firstFreeAux_min (used : List Int) :
    ∀ (fuel : Nat) (c j : Int), c ≤ j → j < firstFreeAux used fuel c → j ∈ used := by
  intro fuel
  induction fuel with
  | zero =>
    intro c j hcj hlt
    simp [firstFreeAux] at hlt
    omega
  | succ fuel ih =>
    intro c j hcj hlt
    simp only [firstFreeAux] at hlt
    by_cases hc : used.contains c
    · rw [if_pos hc] at hlt
      rcases eq_or_lt_of_le hcj with heq | hgt
      · subst heq; simpa using hc
      · exact ih (c + 1) j (by omega) hlt
    · rw [if_neg hc] at hlt
      omega

theorem firstFreeAux_not_mem (used : List Int) :
    ∀ (fuel : Nat) (c : Int), (used.toFinset.filter (fun x => c ≤ x)).card < fuel →
      firstFreeAux used fuel c ∉ used := by
  intro fuel
  induction fuel with
  | zero => intro c h; omega
  | succ fuel ih =>
    intro c h
    by_cases hc : used.contains c
    · have hcm : c ∈ used := by simpa using hc
      simp only [firstFreeAux, if_pos hc]
      apply ih
      have hset : used.toFinset.filter (fun x => c + 1 ≤ x) =
          (used.toFinset.filter (fun x => c ≤ x)).erase c := by
        ext x
        simp only [Finset.mem_filter, Finset.mem_erase, List.mem_toFinset]
        constructor
        · intro hx
          exact ⟨by omega, hx.1, by omega⟩
        · intro hx
          refine ⟨hx.2.1, ?_⟩
          have : x ≠ c := hx.1
          have : c ≤ x := hx.2.2
          omega
      rw [hset]
      have hmemf : c ∈ used.toFinset.filter (fun x => c ≤ x) := by
        simp [List.mem_toFinset, hcm]
      have hcard := Finset.card_erase_of_mem hmemf
      have hpos : 0 < (used.toFinset.filter (fun x => c ≤ x)).card :=
        Finset.card_pos.mpr ⟨c, hmemf⟩
      omega
    · simp only [firstFreeAux, if_neg hc]
      simpa using hc

theorem firstFreeFrom_not_mem (used : List Int) (c : Int) :
    firstFreeFrom used c ∉ used := by
  apply firstFreeAux_not_mem
  have h1 : (used.toFinset.filter (fun x => c ≤ x)).card ≤ used.toFinset.card :=
    Finset.card_filter_le _ _
  have h2 : used.toFinset.card ≤ used.length := used.toFinset_card_le
  omega

theorem firstFreeFrom_le (used : List Int) (c : Int) : c ≤ firstFreeFrom used c :=
  firstFreeAux_le used _ c

theorem firstFreeFrom_min (used : List Int) (c j : Int) (hcj : c ≤ j)
    (hlt : j < firstFreeFrom used c) : j ∈ used :=
  firstFreeAux_min used _ c j hcj hlt

-- ---------------------------------------------------------------------
-- Lemmas about usedColors
-- ---------------------------------------------------------------------

theorem mem_usedColors_iff (tbl : List NeighborInfo) (c : Int) :
    c ∈ usedColors tbl ↔ 0 ≤ c ∧ ∃ n ∈ tbl, n.color = c := by
  simp only [usedColors, List.mem_filter, List.mem_map, decide_eq_true_eq]
  constructor
  · rintro ⟨⟨n, hn, rfl⟩, hc⟩
    exact ⟨hc, n, hn, rfl⟩
  · rintro ⟨hc, n, hn, rfl⟩
    exact ⟨⟨n, hn, rfl⟩, hc⟩

theorem not_contains_zero_iff (tbl : List NeighborInfo) :
    ¬ ((usedColors tbl).contains 0 = true) ↔ ∀ n ∈ tbl, n.color ≠ 0 := by
  rw [List.elem_iff, mem_usedColors_iff]
  constructor
  · intro h n hn hc
    exact h ⟨le_refl 0, n, hn, hc⟩
  · rintro h ⟨-, n, hn, hc⟩
    exact h n hn hc

/-- Claim C1: if the node is uncolored, or its current color equals the
color of some neighbor with a numerically smaller id, handleColorTimer
returns the smallest non-negative integer not used by any neighbor in
the snapshot. -/
theorem claim_C1_recoloring (tbl : List NeighborInfo) (nodeId currentColor : Int)
    (h : currentColor < 0 ∨ ∃ n ∈ tbl, n.color = currentColor ∧ n.neighborId < nodeId) :
    0 ≤ handleColorTimer tbl nodeId currentColor ∧
    (∀ n ∈ tbl, n.color ≠ handleColorTimer tbl nodeId currentColor) ∧
    (∀ j : Int, 0 ≤ j → j < handleColorTimer tbl nodeId currentColor →
      ∃ n ∈ tbl, n.color = j) := by
  have hcond : currentColor < 0 ∨ conflictWithHigherPriority tbl nodeId currentColor := by
    rcases h with h | h
    · exact Or.inl h
    · by_cases hc : currentColor < 0
      · exact Or.inl hc
      · exact Or.inr ⟨by omega, h⟩
  have hres : handleColorTimer tbl nodeId currentColor = firstFreeFrom (usedColors tbl) 0 := by
    simp only [handleColorTimer]
    rw [if_pos hcond]
  rw [hres]
  refine ⟨firstFreeFrom_le _ 0, ?_, ?_⟩
  · intro n hn hcol
    have hmem : firstFreeFrom (usedColors tbl) 0 ∈ usedColors tbl := by
      rw [mem_usedColors_iff]
      exact ⟨firstFreeFrom_le _ 0, n, hn, hcol⟩
    exact firstFreeFrom_not_mem _ _ hmem
  · intro j hj hlt
    have hmem := firstFreeFrom_min (usedColors tbl) 0 j hj hlt
    rw [mem_usedColors_iff] at hmem
    exact hmem.2

/-- Witness for claim C1 at a concrete conflicting snapshot: node 5 with
color 2 hears neighbor 1 with the same color 2, so it recolors. -/
theorem claim_C1_recoloring_witness :
    0 ≤ handleColorTimer [⟨1, 11, 2, 2, 1, 0⟩] 5 2 :=
  (claim_C1_recoloring [⟨1, 11, 2, 2, 1, 0⟩] 5 2 (by decide)).1

/-- Claim C2 counterexample: with an empty neighbor table, the node
colored 1 satisfies every hypothesis of the claim (colored, no conflict,
no neighbor with color 0, own color not 0), yet handleColorTimer keeps
color 1 instead of moving to 0: the code additionally requires a
non-empty neighbor table for cluster head recovery. -/
theorem claim_C2_counterexample :
    ((0:Int) ≤ 1) ∧
    (¬ ∃ n ∈ ([] : List NeighborInfo), n.color = 1 ∧ n.neighborId < 0) ∧
    (∀ n ∈ ([] : List NeighborInfo), n.color ≠ 0) ∧
    ((1:Int) ≠ 0) ∧
    handleColorTimer [] 0 1 = 1 := by
  refine ⟨by decide, by simp, by simp, by decide, ?_⟩
  decide

/-- Claim C2 (amended): if the node is colored, does not conflict with a
smaller-id neighbor of the same color, the neighbor table is non-empty,
no currently-known neighbor uses color 0, and the node's own color is
not 0, then handleColorTimer returns 0. -/
theorem claim_C2_ch_recovery (tbl : List NeighborInfo) (nodeId currentColor : Int)
    (hcol : 0 ≤ currentColor)
    (hnoconf : ¬ ∃ n ∈ tbl, n.color = currentColor ∧ n.neighborId < nodeId)
    (hne : tbl ≠ [])
    (hno0 : ∀ n ∈ tbl, n.color ≠ 0)
    (hc0 : currentColor ≠ 0) :
    handleColorTimer tbl nodeId currentColor = 0 := by
  simp only [handleColorTimer]
  rw [if_neg, if_pos]
  · exact ⟨hne, (not_contains_zero_iff tbl).mpr hno0, hc0⟩
  · rintro (h | ⟨-, h⟩)
    · omega
    · exact hnoconf h

/-- Witness for claim C2 (amended): node 4 colored 2 hears only neighbor
7 with color 1; it claims color 0. -/
theorem claim_C2_ch_recovery_witness :
    handleColorTimer [⟨7, 17, 1, 2, 3, 0⟩] 4 2 = 0 :=
  claim_C2_ch_recovery [⟨7, 17, 1, 2, 3, 0⟩] 4 2 (by decide) (by decide)
    (by decide) (by decide) (by decide)

/-- Claim C3: if the node is colored with a color > 0, not conflicting,
and not captured by the cluster head recovery guard, handleColorTimer
never moves the color up, and it moves down exactly to the smallest
color >= 1 unused by any neighbor when that color is below the current
one. -/
theorem claim_C3_compaction (tbl : List NeighborInfo) (nodeId currentColor : Int)
    (hcol : 0 < currentColor)
    (hnoconf : ¬ ∃ n ∈ tbl, n.color = currentColor ∧ n.neighborId < nodeId)
    (hnorec : ¬ (tbl ≠ [] ∧ (∀ n ∈ tbl, n.color ≠ 0) ∧ currentColor ≠ 0)) :
    handleColorTimer tbl nodeId currentColor ≤ currentColor ∧
    ∃ m : Int, (1 ≤ m ∧ (∀ n ∈ tbl, n.color ≠ m) ∧
        (∀ j : Int, 1 ≤ j → j < m → ∃ n ∈ tbl, n.color = j)) ∧
      handleColorTimer tbl nodeId currentColor =
        if m < currentColor then m else currentColor := by
  have hres : handleColorTimer tbl nodeId currentColor =
      (if firstFreeFrom (usedColors tbl) 1 < currentColor
        then firstFreeFrom (usedColors tbl) 1 else currentColor) := by
    simp only [handleColorTimer]
    rw [if_neg, if_neg, if_pos hcol]
    · intro hguard
      exact hnorec ⟨hguard.1, (not_contains_zero_iff tbl).mp hguard.2.1, hguard.2.2⟩
    · rintro (h | ⟨-, h⟩)
      · omega
      · exact hnoconf h
  refine ⟨?_, firstFreeFrom (usedColors tbl) 1, ⟨firstFreeFrom_le _ 1, ?_, ?_⟩, hres⟩
  · rw [hres]; split <;> omega
  · intro n hn hc
    have hmem : firstFreeFrom (usedColors tbl) 1 ∈ usedColors tbl := by
      rw [mem_usedColors_iff]
      have h1 := firstFreeFrom_le (usedColors tbl) 1
      exact ⟨by omega, n, hn, hc⟩
    exact firstFreeFrom_not_mem _ _ hmem
  · intro j hj hlt
    have hmem := firstFreeFrom_min (usedColors tbl) 1 j hj hlt
    rw [mem_usedColors_iff] at hmem
    exact hmem.2

/-- Witness for claim C3: node 5 colored 3 hears neighbors with colors 0
and 1; compaction can only keep or lower the color (here it moves to 2). -/
theorem claim_C3_compaction_witness :
    handleColorTimer [⟨1, 11, 0, 1, 1, 0⟩, ⟨2, 12, 1, 2, 1, 0⟩] 5 3 ≤ 3 :=
  (claim_C3_compaction [⟨1, 11, 0, 1, 1, 0⟩, ⟨2, 12, 1, 2, 1, 0⟩] 5 3
    (by decide) (by decide) (by decide)).1

-- ---------------------------------------------------------------------
-- Lemmas about the chosenChId scan of recomputeRole
-- ---------------------------------------------------------------------

theorem chStep_cases (acc : Int) (n : NeighborInfo) :
    chStep acc n = acc ∨ (n.color = 0 ∧ chStep acc n = n.neighborId) := by
  unfold chStep
  split
  · rename_i h
    exact Or.inr ⟨h.1, rfl⟩
  · exact Or.inl rfl

theorem chStep_le_of_color0 (acc : Int) (n : NeighborInfo) (h : n.color = 0) :
    chStep acc n ≤ n.neighborId := by
  unfold chStep
  split
  · exact le_refl _
  · rename_i hneg
    push_neg at hneg
    have h2 := hneg h
    omega

theorem chStep_nonneg_of_color0 (acc : Int) (n : NeighborInfo) (h : n.color = 0)
    (hid : 0 ≤ n.neighborId) : 0 ≤ chStep acc n := by
  unfold chStep
  split
  · exact hid
  · rename_i hneg
    push_neg at hneg
    have h2 := hneg h
    omega

theorem foldl_chStep_eq_of_no_color0 (tbl : List NeighborInfo) :
    ∀ acc, (∀ n ∈ tbl, n.color ≠ 0) → tbl.foldl chStep acc = acc := by
  induction tbl with
  | nil => intro acc _; rfl
  | cons n rest ih =>
    intro acc h
    rw [List.foldl_cons]
    have hstep : chStep acc n = acc := by
      unfold chStep
      rw [if_neg]
      rintro ⟨hc, -⟩
      exact h n (List.mem_cons_self n rest) hc
    rw [hstep]
    exact ih acc (fun m hm => h m (List.mem_cons_of_mem n hm))

theorem foldl_chStep_origin (tbl : List NeighborInfo) :
    ∀ acc, tbl.foldl chStep acc = acc ∨
      ∃ n ∈ tbl, n.color = 0 ∧ tbl.foldl chStep acc = n.neighborId := by
  induction tbl with
  | nil => intro acc; exact Or.inl rfl
  | cons n rest ih =>
    intro acc
    rw [List.foldl_cons]
    rcases ih (chStep acc n) with h | ⟨m, hm, hc, hv⟩
    · rw [h]
      rcases chStep_cases acc n with h2 | ⟨hc, h2⟩
      · exact Or.inl h2
      · exact Or.inr ⟨n, List.mem_cons_self n rest, hc, h2⟩
    · exact Or.inr ⟨m, List.mem_cons_of_mem n hm, hc, hv⟩

theorem foldl_chStep_nonneg (tbl : List NeighborInfo) :
    ∀ acc, 0 ≤ acc → (∀ n ∈ tbl, 0 ≤ n.neighborId) → 0 ≤ tbl.foldl chStep acc := by
  induction tbl with
  | nil => intro acc h _; simpa using h
  | cons n rest ih =>
    intro acc hacc hids
    rw [List.foldl_cons]
    apply ih
    · rcases chStep_cases acc n with h | ⟨-, h⟩
      · rw [h]; exact hacc
      · rw [h]; exact hids n (List.mem_cons_self n rest)
    · intro m hm
      exact hids m (List.mem_cons_of_mem n hm)

theorem foldl_chStep_le_acc (tbl : List NeighborInfo) :
    ∀ acc, 0 ≤ acc → (∀ n ∈ tbl, 0 ≤ n.neighborId) → tbl.foldl chStep acc ≤ acc := by
  induction tbl with
  | nil => intro acc _ _; exact le_refl acc
  | cons n rest ih =>
    intro acc hacc hids
    rw [List.foldl_cons]
    have h1 : chStep acc n ≤ acc := by
      unfold chStep
      split
      · rename_i h
        rcases h.2 with h2 | h2 <;> omega
      · exact le_refl acc
    have h0 : 0 ≤ chStep acc n := by
      rcases chStep_cases acc n with h | ⟨-, h⟩
      · rw [h]; exact hacc
      · rw [h]; exact hids n (List.mem_cons_self n rest)
    have h2 := ih (chStep acc n) h0 (fun m hm => hids m (List.mem_cons_of_mem n hm))
    omega

theorem foldl_chStep_min (tbl : List NeighborInfo) :
    ∀ acc, (∀ n ∈ tbl, 0 ≤ n.neighborId) → ∀ m ∈ tbl, m.color = 0 →
      tbl.foldl chStep acc ≤ m.neighborId := by
  induction tbl with
  | nil =>
    intro acc _ m hm
    exact absurd hm (List.not_mem_nil m)
  | cons n rest ih =>
    intro acc hids m hm hc
    rw [List.foldl_cons]
    rcases List.mem_cons.mp hm with rfl | hm2
    · have h1 : chStep acc m ≤ m.neighborId := chStep_le_of_color0 acc m hc
      have h0 : 0 ≤ chStep acc m :=
        chStep_nonneg_of_color0 acc m hc (hids m (List.mem_cons_self m rest))
      have h2 := foldl_chStep_le_acc rest (chStep acc m) h0
        (fun q hq => hids q (List.mem_cons_of_mem m hq))
      omega
    · exact ih (chStep acc n) (fun q hq => hids q (List.mem_cons_of_mem n hq)) m hm2 hc

theorem foldl_chStep_nonneg_of_mem (tbl : List NeighborInfo) :
    ∀ acc, (∀ n ∈ tbl, 0 ≤ n.neighborId) → ∀ m ∈ tbl, m.color = 0 →
      0 ≤ tbl.foldl chStep acc := by
  induction tbl with
  | nil =>
    intro acc _ m hm
    exact absurd hm (List.not_mem_nil m)
  | cons n rest ih =>
    intro acc hids m hm hc
    rw [List.foldl_cons]
    rcases List.mem_cons.mp hm with rfl | hm2
    · have h0 : 0 ≤ chStep acc m :=
        chStep_nonneg_of_color0 acc m hc (hids m (List.mem_cons_self m rest))
      exact foldl_chStep_nonneg rest (chStep acc m) h0
        (fun q hq => hids q (List.mem_cons_of_mem m hq))
    · exact ih (chStep acc n) (fun q hq => hids q (List.mem_cons_of_mem n hq)) m hm2 hc

theorem chooseChId_eq_neg_one (tbl : List NeighborInfo) (h : ∀ n ∈ tbl, n.color ≠ 0) :
    chooseChId tbl = -1 :=
  foldl_chStep_eq_of_no_color0 tbl (-1) h

theorem chooseChId_nonneg (tbl : List NeighborInfo) (hids : ∀ n ∈ tbl, 0 ≤ n.neighborId)
    (m : NeighborInfo) (hm : m ∈ tbl) (hc : m.color = 0) : 0 ≤ chooseChId tbl :=
  foldl_chStep_nonneg_of_mem tbl (-1) hids m hm hc

theorem chooseChId_mem (tbl : List NeighborInfo) (h : 0 ≤ chooseChId tbl) :
    ∃ n ∈ tbl, n.color = 0 ∧ chooseChId tbl = n.neighborId := by
  rcases foldl_chStep_origin tbl (-1) with h2 | h2
  · unfold chooseChId at h
    rw [h2] at h
    omega
  · exact h2

theorem chooseChId_min (tbl : List NeighborInfo) (hids : ∀ n ∈ tbl, 0 ≤ n.neighborId)
    (m : NeighborInfo) (hm : m ∈ tbl) (hc : m.color = 0) :
    chooseChId tbl ≤ m.neighborId :=
  foldl_chStep_min tbl (-1) hids m hm hc

theorem chooseChId_neg_eq (tbl : List NeighborInfo) (hids : ∀ n ∈ tbl, 0 ≤ n.neighborId)
    (h : chooseChId tbl < 0) : chooseChId tbl = -1 := by
  rcases foldl_chStep_origin tbl (-1) with h2 | ⟨n, hn, -, h2⟩
  · exact h2
  · have h3 := hids n hn
    unfold chooseChId at h
    rw [h2] at h
    omega

theorem recomputeRole_neg (tbl : List NeighborInfo) (nodeId currentColor : Int)
    (h : currentColor < 0) :
    recomputeRole tbl nodeId currentColor = ⟨UNDECIDED, -1, currentColor⟩ := by
  simp only [recomputeRole]
  rw [if_pos h]

theorem recomputeRole_zero (tbl : List NeighborInfo) (nodeId currentColor : Int)
    (h : currentColor = 0) :
    recomputeRole tbl nodeId currentColor = ⟨CLUSTER_HEAD, nodeId, currentColor⟩ := by
  simp only [recomputeRole]
  rw [if_neg (by omega), if_pos h]

theorem recomputeRole_pos (tbl : List NeighborInfo) (nodeId currentColor : Int)
    (hpos : 0 < currentColor) (hnn : 0 ≤ chooseChId tbl) :
    recomputeRole tbl nodeId currentColor =
      (if ∃ n ∈ tbl, 0 ≤ n.clusterId ∧ n.clusterId ≠ chooseChId tbl
       then ⟨GATEWAY, chooseChId tbl, currentColor⟩
       else ⟨MEMBER, chooseChId tbl, currentColor⟩) := by
  simp only [recomputeRole]
  rw [if_neg (by omega), if_neg (by omega), if_neg (by omega)]

theorem recomputeRole_orphan (tbl : List NeighborInfo) (nodeId currentColor : Int)
    (hpos : 0 < currentColor) (hneg : chooseChId tbl < 0) :
    recomputeRole tbl nodeId currentColor = ⟨UNDECIDED, chooseChId tbl, -1⟩ := by
  simp only [recomputeRole]
  rw [if_neg (by omega), if_neg (by omega), if_pos hneg]

/-- Claim C4: role mapping of recomputeRole.  Unassigned color gives
Undecided with no cluster; color 0 gives ClusterHead with the node's own
id as clusterId; a positive color attaches to the smallest-id neighbor
with color 0, and when no neighbor has color 0 the role reverts to
Undecided and the color is forced back to unassigned.  Node ids are
module indices, hence the non-negativity hypothesis. -/
theorem claim_C4_role_mapping (tbl : List NeighborInfo) (nodeId currentColor : Int)
    (r : RoleResult)
    (hids : ∀ n ∈ tbl, 0 ≤ n.neighborId)
    (hr : r = recomputeRole tbl nodeId currentColor) :
    (currentColor < 0 → r.role = UNDECIDED ∧ r.clusterId = -1) ∧
    (currentColor = 0 → r.role = CLUSTER_HEAD ∧ r.clusterId = nodeId) ∧
    (0 < currentColor → (∃ n ∈ tbl, n.color = 0) →
      (∃ n ∈ tbl, n.color = 0 ∧ r.clusterId = n.neighborId) ∧
      (∀ n ∈ tbl, n.color = 0 → r.clusterId ≤ n.neighborId)) ∧
    (0 < currentColor → (∀ n ∈ tbl, n.color ≠ 0) →
      r.role = UNDECIDED ∧ r.clusterId = -1 ∧ r.currentColor = -1) := by
  subst hr
  refine ⟨?_, ?_, ?_, ?_⟩
  · intro h
    rw [recomputeRole_neg tbl nodeId currentColor h]
    exact ⟨rfl, rfl⟩
  · intro h
    rw [recomputeRole_zero tbl nodeId currentColor h]
    exact ⟨rfl, rfl⟩
  · rintro hpos ⟨m, hm, hc⟩
    have hnn := chooseChId_nonneg tbl hids m hm hc
    have hcl : (recomputeRole tbl nodeId currentColor).clusterId = chooseChId tbl := by
      rw [recomputeRole_pos tbl nodeId currentColor hpos hnn]
      split <;> rfl
    rw [hcl]
    constructor
    · exact chooseChId_mem tbl hnn
    · intro n hn hc2
      exact chooseChId_min tbl hids n hn hc2
  · intro hpos hno
    have hneg : chooseChId tbl = -1 := chooseChId_eq_neg_one tbl hno
    rw [recomputeRole_orphan tbl nodeId currentColor hpos (by omega)]
    exact ⟨rfl, hneg, rfl⟩

/-- Witness for claim C4 at color 0: the node becomes cluster head of
its own cluster. -/
theorem claim_C4_role_mapping_witness :
    (recomputeRole [⟨1, 11, 2, 2, 1, 0⟩] 9 0).role = CLUSTER_HEAD ∧
    (recomputeRole [⟨1, 11, 2, 2, 1, 0⟩] 9 0).clusterId = 9 :=
  (claim_C4_role_mapping [⟨1, 11, 2, 2, 1, 0⟩] 9 0 _ (by decide) rfl).2.1 rfl

/-- Claim C5: with a positive color and a visible color-0 neighbor, the
role is Gateway exactly when some neighbor reports an actual clusterId
(not the -1 sentinel) different from this node's own clusterId, and
Member otherwise. -/
theorem claim_C5_gateway_member (tbl : List NeighborInfo) (nodeId currentColor : Int)
    (r : RoleResult)
    (hids : ∀ n ∈ tbl, 0 ≤ n.neighborId)
    (hcol : 0 < currentColor)
    (hch : ∃ n ∈ tbl, n.color = 0)
    (hr : r = recomputeRole tbl nodeId currentColor) :
    (r.role = GATEWAY ↔ ∃ n ∈ tbl, 0 ≤ n.clusterId ∧ n.clusterId ≠ r.clusterId) ∧
    (r.role = MEMBER ↔ ¬ ∃ n ∈ tbl, 0 ≤ n.clusterId ∧ n.clusterId ≠ r.clusterId) := by
  subst hr
  obtain ⟨m, hm, hc⟩ := hch
  have hnn := chooseChId_nonneg tbl hids m hm hc
  rw [recomputeRole_pos tbl nodeId currentColor hcol hnn]
  by_cases hP : ∃ n ∈ tbl, 0 ≤ n.clusterId ∧ n.clusterId ≠ chooseChId tbl
  · rw [if_pos hP]
    refine ⟨⟨fun _ => hP, fun _ => rfl⟩, ⟨?_, ?_⟩⟩
    · intro h
      exact absurd (show GATEWAY = MEMBER from h) (by decide)
    · intro h
      exact absurd hP h
  · rw [if_neg hP]
    refine ⟨⟨?_, ?_⟩, ⟨fun _ => hP, fun _ => rfl⟩⟩
    · intro h
      exact absurd (show MEMBER = GATEWAY from h) (by decide)
    · intro h
      exact absurd h hP

/-- Witness for claim C5: node 9 with color 2 hears cluster head 1 and a
neighbor attached to a different cluster head 0, so it is a Gateway. -/
theorem claim_C5_gateway_member_witness :
    (recomputeRole [⟨1, 11, 0, 1, 1, 0⟩, ⟨2, 12, 2, 2, 0, 0⟩] 9 2).role = GATEWAY :=
  (claim_C5_gateway_member [⟨1, 11, 0, 1, 1, 0⟩, ⟨2, 12, 2, 2, 0, 0⟩] 9 2 _
    (by decide) (by decide) ⟨⟨1, 11, 0, 1, 1, 0⟩, by decide, rfl⟩ rfl).1.mpr
    ⟨⟨2, 12, 2, 2, 0, 0⟩, by decide, by decide, by decide⟩

/-- Claim C9: consistency invariant of the state produced by
recomputeRole: Undecided exactly when the color is unassigned (and then
clusterId is the none sentinel), ClusterHead exactly when the color is 0
(and then clusterId is the node's own id), and Member or Gateway only
with a positive color and a clusterId equal to the id of some neighbor
recorded with color 0. -/
theorem claim_C9_role_consistency (tbl : List NeighborInfo) (nodeId currentColor : Int)
    (r : RoleResult)
    (hids : ∀ n ∈ tbl, 0 ≤ n.neighborId)
    (hr : r = recomputeRole tbl nodeId currentColor) :
    (r.role = UNDECIDED ↔ r.currentColor < 0) ∧
    (r.role = UNDECIDED → r.clusterId = -1) ∧
    (r.role = CLUSTER_HEAD ↔ r.currentColor = 0) ∧
    (r.role = CLUSTER_HEAD → r.clusterId = nodeId) ∧
    ((r.role = MEMBER ∨ r.role = GATEWAY) →
      0 < r.currentColor ∧ ∃ n ∈ tbl, n.color = 0 ∧ r.clusterId = n.neighborId) := by
  subst hr
  by_cases h1 : currentColor < 0
  · rw [recomputeRole_neg tbl nodeId currentColor h1]
    refine ⟨iff_of_true rfl h1, fun _ => rfl, ?_, ?_, ?_⟩
    · constructor
      · intro h
        exact absurd (show UNDECIDED = CLUSTER_HEAD from h) (by decide)
      · intro h
        exact absurd (show currentColor = 0 from h) (by omega)
    · intro h
      exact absurd (show UNDECIDED = CLUSTER_HEAD from h) (by decide)
    · rintro (h | h)
      · exact absurd (show UNDECIDED = MEMBER from h) (by decide)
      · exact absurd (show UNDECIDED = GATEWAY from h) (by decide)
  by_cases h2 : currentColor = 0
  · rw [recomputeRole_zero tbl nodeId currentColor h2]
    refine ⟨?_, ?_, iff_of_true rfl h2, fun _ => rfl, ?_⟩
    · constructor
      · intro h
        exact absurd (show CLUSTER_HEAD = UNDECIDED from h) (by decide)
      · intro h
        exact absurd (show currentColor < 0 from h) (by omega)
    · intro h
      exact absurd (show CLUSTER_HEAD = UNDECIDED from h) (by decide)
    · rintro (h | h)
      · exact absurd (show CLUSTER_HEAD = MEMBER from h) (by decide)
      · exact absurd (show CLUSTER_HEAD = GATEWAY from h) (by decide)
  have hpos : 0 < currentColor := by omega
  by_cases h3 : chooseChId tbl < 0
  · have he : chooseChId tbl = -1 := chooseChId_neg_eq tbl hids h3
    rw [recomputeRole_orphan tbl nodeId currentColor hpos h3]
    refine ⟨iff_of_true rfl (show (-1 : Int) < 0 by decide), fun _ => he, ?_, ?_, ?_⟩
    · constructor
      · intro h
        exact absurd (show UNDECIDED = CLUSTER_HEAD from h) (by decide)
      · intro h
        exact absurd (show (-1 : Int) = 0 from h) (by decide)
    · intro h
      exact absurd (show UNDECIDED = CLUSTER_HEAD from h) (by decide)
    · rintro (h | h)
      · exact absurd (show UNDECIDED = MEMBER from h) (by decide)
      · exact absurd (show UNDECIDED = GATEWAY from h) (by decide)
  · have hnn : 0 ≤ chooseChId tbl := by omega
    have hmem := chooseChId_mem tbl hnn
    rw [recomputeRole_pos tbl nodeId currentColor hpos hnn]
    by_cases hP : ∃ n ∈ tbl, 0 ≤ n.clusterId ∧ n.clusterId ≠ chooseChId tbl
    · rw [if_pos hP]
      refine ⟨?_, ?_, ?_, ?_, fun _ => ⟨hpos, hmem⟩⟩
      · constructor
        · intro h
          exact absurd (show GATEWAY = UNDECIDED from h) (by decide)
        · intro h
          exact absurd (show currentColor < 0 from h) (by omega)
      · intro h
        exact absurd (show GATEWAY = UNDECIDED from h) (by decide)
      · constructor
        · intro h
          exact absurd (show GATEWAY = CLUSTER_HEAD from h) (by decide)
        · intro h
          exact absurd (show currentColor = 0 from h) (by omega)
      · intro h
        exact absurd (show GATEWAY = CLUSTER_HEAD from h) (by decide)
    · rw [if_neg hP]
      refine ⟨?_, ?_, ?_, ?_, fun _ => ⟨hpos, hmem⟩⟩
      · constructor
        · intro h
          exact absurd (show MEMBER = UNDECIDED from h) (by decide)
        · intro h
          exact absurd (show currentColor < 0 from h) (by omega)
      · intro h
        exact absurd (show MEMBER = UNDECIDED from h) (by decide)
      · constructor
        · intro h
          exact absurd (show MEMBER = CLUSTER_HEAD from h) (by decide)
        · intro h
          exact absurd (show currentColor = 0 from h) (by omega)
      · intro h
        exact absurd (show MEMBER = CLUSTER_HEAD from h) (by decide)

/-- Witness for claim C9: with an unassigned color the invariant forces
clusterId to the none sentinel. -/
theorem claim_C9_role_consistency_witness :
    (recomputeRole [⟨1, 11, 0, 1, 1, 0⟩] 9 (-1)).clusterId = -1 :=
  (claim_C9_role_consistency [⟨1, 11, 0, 1, 1, 0⟩] 9 (-1) _ (by decide) rfl).2.1 rfl

/-- Claim C8: pruneNeighbors removes exactly the entries whose lastHeard
exceeded neighborTimeout, keeps all others unchanged, and reports true
exactly when something was removed.  std::map keys are unique, hence the
Nodup hypothesis on the ids. -/
theorem claim_C8_prune (tbl : List NeighborInfo) (now neighborTimeout : Int)
    (hkeys : (tbl.map (fun n => n.neighborId)).Nodup) :
    (∀ n ∈ tbl, neighborTimeout < now - n.lastHeard →
      n ∉ (pruneNeighbors tbl now neighborTimeout).1) ∧
    (∀ n ∈ tbl, now - n.lastHeard ≤ neighborTimeout →
      n ∈ (pruneNeighbors tbl now neighborTimeout).1) ∧
    ((pruneNeighbors tbl now neighborTimeout).2 = true ↔
      ∃ n ∈ tbl, neighborTimeout < now - n.lastHeard) := by
  have hinj := List.inj_on_of_nodup_map hkeys
  refine ⟨?_, ?_, ?_⟩
  · intro n hn hstale hmem
    simp only [pruneNeighbors, List.mem_filter] at hmem
    have hrm : n.neighborId ∈ (tbl.filter
        (fun q => decide (neighborTimeout < now - q.lastHeard))).map
        (fun q => q.neighborId) :=
      List.mem_map.mpr ⟨n, List.mem_filter.mpr ⟨hn, by simpa using hstale⟩, rfl⟩
    have hcon : ((tbl.filter
        (fun q => decide (neighborTimeout < now - q.lastHeard))).map
        (fun q => q.neighborId)).contains n.neighborId = true := List.elem_iff.mpr hrm
    rw [hcon] at hmem
    simp at hmem
  · intro n hn hfresh
    simp only [pruneNeighbors, List.mem_filter]
    refine ⟨hn, ?_⟩
    rw [Bool.not_eq_true', Bool.eq_false_iff]
    intro hcon
    have hrm := List.elem_iff.mp hcon
    rw [List.mem_map] at hrm
    obtain ⟨m, hm, hv⟩ := hrm
    rw [List.mem_filter] at hm
    have hmeq : m = n := hinj hm.1 hn hv
    subst hmeq
    have h2 := hm.2
    simp at h2
    omega
  · simp only [pruneNeighbors]
    rw [Bool.not_eq_true', List.isEmpty_eq_false_iff_exists_mem]
    constructor
    · rintro ⟨x, hx⟩
      rw [List.mem_map] at hx
      obtain ⟨m, hm, -⟩ := hx
      rw [List.mem_filter] at hm
      exact ⟨m, hm.1, by simpa using hm.2⟩
    · rintro ⟨n, hn, hstale⟩
      exact ⟨n.neighborId,
        List.mem_map.mpr ⟨n, List.mem_filter.mpr ⟨hn, by simpa using hstale⟩, rfl⟩⟩

/-- Witness for claim C8: a stale entry (heard at time 0, now 100,
timeout 10) makes pruneNeighbors report a change. -/
theorem claim_C8_prune_witness :
    (pruneNeighbors [⟨1, 11, 0, 1, 1, 0⟩] 100 10).2 = true :=
  (claim_C8_prune [⟨1, 11, 0, 1, 1, 0⟩] 100 10 (by decide)).2.2.mpr
    ⟨⟨1, 11, 0, 1, 1, 0⟩, by decide, by decide⟩

theorem mem_upsertNeighbor (tbl : List NeighborInfo) (info m : NeighborInfo)
    (hm : m ∈ upsertNeighbor tbl info) : m = info ∨ m ∈ tbl := by
  unfold upsertNeighbor at hm
  split at hm
  · rw [List.mem_map] at hm
    obtain ⟨q, hq, hv⟩ := hm
    by_cases h : q.neighborId == info.neighborId
    · rw [if_pos h] at hv
      exact Or.inl hv.symm
    · rw [if_neg h] at hv
      exact Or.inr (hv ▸ hq)
  · rw [List.mem_append] at hm
    rcases hm with h | h
    · exact Or.inr h
    · rw [List.mem_singleton] at h
      exact Or.inl h

/-- Claim C10: a self advertisement leaves the neighbor table untouched,
and consequently, starting from any table free of the node's own id,
processing any sequence of advertisements never produces an entry keyed
by the node's own id. -/
theorem claim_C10_self_suppression (tbl : List NeighborInfo) (nodeId : Int)
    (advs : List (Advertisement × Int))
    (hinit : ∀ n ∈ tbl, n.neighborId ≠ nodeId) :
    (∀ (adv : Advertisement) (now : Int), adv.senderId = nodeId →
      handleAdvertisement tbl nodeId adv now = tbl) ∧
    (∀ n ∈ advs.foldl (fun t an => handleAdvertisement t nodeId an.1 an.2) tbl,
      n.neighborId ≠ nodeId) := by
  constructor
  · intro adv now h
    unfold handleAdvertisement
    rw [if_pos h]
  · suffices h : ∀ (l : List (Advertisement × Int)) (t : List NeighborInfo),
        (∀ n ∈ t, n.neighborId ≠ nodeId) →
        ∀ n ∈ l.foldl (fun t an => handleAdvertisement t nodeId an.1 an.2) t,
          n.neighborId ≠ nodeId from h advs tbl hinit
    intro l
    induction l with
    | nil =>
      intro t ht n hn
      exact ht n hn
    | cons a rest ih =>
      intro t ht n hn
      rw [List.foldl_cons] at hn
      refine ih (handleAdvertisement t nodeId a.1 a.2) ?_ n hn
      intro m hm
      by_cases h : a.1.senderId = nodeId
      · unfold handleAdvertisement at hm
        rw [if_pos h] at hm
        exact ht m hm
      · unfold handleAdvertisement at hm
        rw [if_neg h] at hm
        rcases mem_upsertNeighbor t _ m hm with rfl | hm2
        · exact h
        · exact ht m hm2

/-- Witness for claim C10: a node with id 5 receiving its own
advertisement keeps its (empty) neighbor table. -/
theorem claim_C10_self_suppression_witness :
    handleAdvertisement [] 5 ⟨5, 0, 2, -1, 50⟩ 3 = [] :=
  (claim_C10_self_suppression [] 5 [] (by simp)).1 ⟨5, 0, 2, -1, 50⟩ 3 rfl

theorem forwardStage_not_drop (st : NodeState) (pkt : DataPkt) (lastHopIp : Int)
    (seen1 backbone1 : List (Int × Int)) :
    (forwardStage st pkt lastHopIp seen1 backbone1).outcome ≠ RxOutcome.dropDuplicate := by
  simp only [forwardStage]
  repeat' split
  all_goals intro h
  all_goals exact RxOutcome.noConfusion h

theorem forwardStage_sends_ttl (st : NodeState) (pkt : DataPkt) (lastHopIp : Int)
    (seen1 backbone1 : List (Int × Int)) (sends : List DataPkt)
    (h : (forwardStage st pkt lastHopIp seen1 backbone1).outcome = RxOutcome.forwarded sends) :
    ∀ q ∈ sends, q.ttl = pkt.ttl - 1 := by
  simp only [forwardStage] at h
  revert h
  repeat' split
  all_goals intro h
  all_goals injection h with h
  all_goals subst h
  all_goals intro q hq
  all_goals first
    | (rw [List.mem_singleton] at hq; subst hq; rfl)
    | (simp only [chFloodSends, gwBridgeSends, List.mem_map, List.mem_filter] at hq;
       obtain ⟨n, -, rfl⟩ := hq; rfl)
    | exact absurd hq (List.not_mem_nil q)

theorem forwardStage_sent_ttl (st : NodeState) (pkt : DataPkt) (lastHopIp : Int)
    (seen1 backbone1 : List (Int × Int)) :
    ∀ q ∈ sentPackets (forwardStage st pkt lastHopIp seen1 backbone1).outcome,
      q.ttl = pkt.ttl - 1 := by
  intro q hq
  cases ho : (forwardStage st pkt lastHopIp seen1 backbone1).outcome with
  | forwarded sends =>
    rw [ho] at hq
    exact forwardStage_sends_ttl st pkt lastHopIp seen1 backbone1 sends ho q hq
  | dropNotMine => rw [ho] at hq; simp [sentPackets] at hq
  | dropDuplicate => rw [ho] at hq; simp [sentPackets] at hq
  | delivered => rw [ho] at hq; simp [sentPackets] at hq
  | dropMember => rw [ho] at hq; simp [sentPackets] at hq
  | dropTtl => rw [ho] at hq; simp [sentPackets] at hq

theorem handleDataPacket_outcome_cases (st : NodeState) (pkt : DataPkt) (lastHopIp : Int) :
    (handleDataPacket st pkt lastHopIp).outcome = RxOutcome.dropNotMine ∨
    (handleDataPacket st pkt lastHopIp).outcome = RxOutcome.dropDuplicate ∨
    (handleDataPacket st pkt lastHopIp).outcome = RxOutcome.delivered ∨
    (handleDataPacket st pkt lastHopIp).outcome = RxOutcome.dropMember ∨
    (handleDataPacket st pkt lastHopIp).outcome = RxOutcome.dropTtl ∨
    (0 < pkt.ttl ∧ ∃ seen1 backbone1 : List (Int × Int),
      handleDataPacket st pkt lastHopIp = forwardStage st pkt lastHopIp seen1 backbone1) := by
  simp only [handleDataPacket]
  repeat' split
  all_goals first
    | exact Or.inl rfl
    | exact Or.inr (Or.inl rfl)
    | exact Or.inr (Or.inr (Or.inl rfl))
    | exact Or.inr (Or.inr (Or.inr (Or.inl rfl)))
    | exact Or.inr (Or.inr (Or.inr (Or.inr (Or.inl rfl))))
    | exact Or.inr (Or.inr (Or.inr (Or.inr (Or.inr ⟨by omega, _, _, rfl⟩))))

/-- Claim C6: a received DATA unit that passes the addressing filter and
whose (srcId, seqNum) pair is already recorded is dropped by the
duplicate filter, except precisely when this node is the original
source, holds role Gateway, and the unit arrives from its own cluster
head, in which case processing continues past the duplicate filter. -/
theorem claim_C6_duplicate_filter (st : NodeState) (pkt : DataPkt) (lastHopIp : Int)
    (haddr : pkt.nextHopId = -1 ∨ pkt.nextHopId = st.nodeId)
    (hseen : (pkt.srcId, pkt.seqNum) ∈ st.seenDataPackets) :
    (¬ (pkt.srcId = st.nodeId ∧ st.role = GATEWAY ∧ FromMyCH st lastHopIp) →
      (handleDataPacket st pkt lastHopIp).outcome = RxOutcome.dropDuplicate) ∧
    ((pkt.srcId = st.nodeId ∧ st.role = GATEWAY ∧ FromMyCH st lastHopIp) →
      (handleDataPacket st pkt lastHopIp).outcome ≠ RxOutcome.dropDuplicate) := by
  have hB : st.seenDataPackets.contains (pkt.srcId, pkt.seqNum) = true :=
    List.elem_iff.mpr hseen
  have hnot : ¬ (pkt.nextHopId ≠ -1 ∧ pkt.nextHopId ≠ st.nodeId) := by
    rcases haddr with h | h
    · intro hcon
      exact hcon.1 h
    · intro hcon
      exact hcon.2 h
  constructor
  · intro hexc
    simp only [handleDataPacket]
    rw [if_neg hnot, if_pos ⟨hB, hexc⟩]
  · intro hexc
    simp only [handleDataPacket]
    rw [if_neg hnot, if_neg (fun hcon => hcon.2 hexc)]
    repeat' split
    all_goals intro hcon
    all_goals first
      | simp at hcon
      | exact forwardStage_not_drop st pkt lastHopIp _ _ hcon

/-- Witness for claim C6: a Member relay that already saw (7, 5) drops
the second copy. -/
theorem claim_C6_duplicate_filter_witness :
    (handleDataPacket ⟨2, 1, MEMBER, 1, [⟨1, 11, 0, 1, 1, 0⟩], [(7, 5)], []⟩
      ⟨7, 5, 3, 9, -1, 0⟩ 11).outcome = RxOutcome.dropDuplicate :=
  (claim_C6_duplicate_filter ⟨2, 1, MEMBER, 1, [⟨1, 11, 0, 1, 1, 0⟩], [(7, 5)], []⟩
    ⟨7, 5, 3, 9, -1, 0⟩ 11 (Or.inl rfl) (by decide)).1 (by decide)

/-- Claim C7: every copy forwarded by the DATA receive path carries a
TTL exactly one less than the received TTL, and a unit received with
TTL at most 0 that reaches the forwarding step is dropped there and
never forwarded. -/
theorem claim_C7_ttl (st : NodeState) (pkt : DataPkt) (lastHopIp : Int) :
    (∀ q ∈ sentPackets (handleDataPacket st pkt lastHopIp).outcome,
      q.ttl = pkt.ttl - 1) ∧
    (pkt.ttl ≤ 0 → ∀ sends,
      (handleDataPacket st pkt lastHopIp).outcome ≠ RxOutcome.forwarded sends) := by
  constructor
  · intro q hq
    rcases handleDataPacket_outcome_cases st pkt lastHopIp with
      h | h | h | h | h | ⟨-, s1, b1, h⟩
    · rw [h] at hq; simp [sentPackets] at hq
    · rw [h] at hq; simp [sentPackets] at hq
    · rw [h] at hq; simp [sentPackets] at hq
    · rw [h] at hq; simp [sentPackets] at hq
    · rw [h] at hq; simp [sentPackets] at hq
    · rw [h] at hq
      exact forwardStage_sent_ttl st pkt lastHopIp s1 b1 q hq
  · intro httl sends hcon
    rcases handleDataPacket_outcome_cases st pkt lastHopIp with
      h | h | h | h | h | ⟨hpos, -⟩
    · rw [h] at hcon; exact RxOutcome.noConfusion hcon
    · rw [h] at hcon; exact RxOutcome.noConfusion hcon
    · rw [h] at hcon; exact RxOutcome.noConfusion hcon
    · rw [h] at hcon; exact RxOutcome.noConfusion hcon
    · rw [h] at hcon; exact RxOutcome.noConfusion hcon
    · omega

/-- Witness for claim C7: a cluster head forwarding to a local neighbor
emits a copy with TTL 9 for a received TTL of 10. -/
theorem claim_C7_ttl_witness :
    (⟨7, 5, 9, 2, 2, 0⟩ : DataPkt).ttl = (10 : Int) - 1 :=
  (claim_C7_ttl ⟨1, 0, CLUSTER_HEAD, 1, [⟨2, 12, 1, 2, 1, 0⟩], [], []⟩
    ⟨7, 5, 10, 2, 1, 0⟩ 99).1 ⟨7, 5, 9, 2, 2, 0⟩ (by decide)
